import Mathlib

/-!
Verification development for the room-signaling relay and the client-side
peer-negotiation orchestrator of the `side-channel` repository.

The server model follows `src/app/durable-objects/SignalingServer.ts`
(current version: the one with generation tokens, the mute-state cache and
the rate limiter); the client model follows `src/app/hooks/useWebRTC.ts`
(current version: the one with device switching and mute-state replay).

JavaScript `Map` objects are embedded as insertion-ordered association
lists with unique keys: `mapGet`, `mapSet` (in-place update of an existing
key, append otherwise) and `mapDelete` mirror `Map.get` / `Map.set` /
`Map.delete`.  WebSockets are identified by numeric handles; whether a
`send` on a handle succeeds or throws is supplied by an environment
function `sendOk : Nat → Bool`, and the effects a handler performs
(successful sends, channel closes) are returned as an explicit list.
-/

namespace SideChannel

/-- `Map.get`: first (only) value stored under key `k`. -/
def mapGet {κ α : Type} [DecidableEq κ] : List (κ × α) → κ → Option α
  | [], _ => none
  | p :: rest, k => if p.1 = k then some p.2 else mapGet rest k

/-- `Map.set`: replace the value of an existing key in place, else append. -/
def mapSet {κ α : Type} [DecidableEq κ] : List (κ × α) → κ → α → List (κ × α)
  | [], k, v => [(k, v)]
  | p :: rest, k, v => if p.1 = k then (k, v) :: rest else p :: mapSet rest k v

/-- `Map.delete`: drop the entry stored under key `k`. -/
def mapDelete {κ α : Type} [DecidableEq κ] (m : List (κ × α)) (k : κ) : List (κ × α) :=
  m.filter (fun p => p.1 ≠ k)

section MapLemmas

variable {κ α : Type} [DecidableEq κ]

@[simp] theorem mapGet_nil (k : κ) : mapGet ([] : List (κ × α)) k = none := rfl

theorem mapGet_cons (p : κ × α) (m : List (κ × α)) (k : κ) :
    mapGet (p :: m) k = if p.1 = k then some p.2 else mapGet m k := rfl

@[simp] theorem mapGet_mapSet_self (m : List (κ × α)) (k : κ) (v : α) :
    mapGet (mapSet m k v) k = some v := by
  induction m with
  | nil => simp [mapGet, mapSet]
  | cons p rest ih =>
    by_cases h : p.1 = k
    · simp [mapGet, mapSet, h]
    · simp [mapGet, mapSet, h, ih]

theorem mapGet_mapSet_ne (m : List (κ × α)) (k k' : κ) (v : α) (h : k' ≠ k) :
    mapGet (mapSet m k v) k' = mapGet m k' := by
  induction m with
  | nil => simp [mapGet, mapSet, Ne.symm h]
  | cons p rest ih =>
    by_cases hp : p.1 = k
    · subst hp
      simp [mapGet, mapSet, Ne.symm h]
    · simp only [mapSet, if_neg hp, mapGet_cons]
      by_cases hp' : p.1 = k'
      · simp [hp']
      · simp [hp', ih]

@[simp] theorem mapGet_mapDelete_self (m : List (κ × α)) (k : κ) :
    mapGet (mapDelete m k) k = none := by
  induction m with
  | nil => rfl
  | cons p rest ih =>
    by_cases h : p.1 = k
    · simpa [mapDelete, h] using ih
    · simpa [mapDelete, mapGet_cons, h] using ih

theorem mapGet_mapDelete_ne (m : List (κ × α)) (k k' : κ) (h : k' ≠ k) :
    mapGet (mapDelete m k) k' = mapGet m k' := by
  induction m with
  | nil => rfl
  | cons p rest ih =>
    by_cases hp : p.1 = k
    · have hp' : ¬p.1 = k' := fun hc => h (hc ▸ hp)
      have hd : mapDelete (p :: rest) k = mapDelete rest k := by
        simp [mapDelete, List.filter_cons, hp]
      rw [hd, ih, mapGet_cons, if_neg hp']
    · have hd : mapDelete (p :: rest) k = p :: mapDelete rest k := by
        simp [mapDelete, List.filter_cons, hp]
      rw [hd, mapGet_cons, mapGet_cons]
      by_cases hp' : p.1 = k'
      · simp [hp']
      · simp [hp', ih]

theorem mem_of_mem_mapDelete {m : List (κ × α)} {k : κ} {p : κ × α}
    (h : p ∈ mapDelete m k) : p ∈ m :=
  List.mem_of_mem_filter h

theorem mem_mapSet {m : List (κ × α)} {k : κ} {v : α} {p : κ × α}
    (h : p ∈ mapSet m k v) : p = (k, v) ∨ p ∈ m := by
  induction m with
  | nil => simpa [mapSet] using h
  | cons q rest ih =>
    by_cases hq : q.1 = k
    · simp only [mapSet, if_pos hq, List.mem_cons] at h
      rcases h with h | h
      · exact Or.inl h
      · exact Or.inr (List.mem_cons_of_mem _ h)
    · simp only [mapSet, if_neg hq, List.mem_cons] at h
      rcases h with h | h
      · exact Or.inr (h ▸ List.mem_cons_self _ _)
      · rcases ih h with h' | h'
        · exact Or.inl h'
        · exact Or.inr (List.mem_cons_of_mem _ h')

theorem mapGet_eq_none_iff {m : List (κ × α)} {k : κ} :
    mapGet m k = none ↔ ∀ p ∈ m, p.1 ≠ k := by
  induction m with
  | nil => simp
  | cons p rest ih =>
    by_cases hp : p.1 = k
    · simp [mapGet_cons, hp]
    · simp [mapGet_cons, hp, ih]

end MapLemmas

/-! ## Server data model (`SignalingServer.ts`) -/

/-- The kinds of targeted negotiation messages (`offer`, `answer`, `ice-candidate`). -/
inductive SignalKind : Type
  | offer
  | answer
  | iceCandidate
deriving DecidableEq, Repr

/-- A client→relay message after schema validation (`MessageSchema`):
`join{clientId}`, `offer/answer/ice-candidate{targetClientId, payload, senderClientId}`
or `mute-state{muted, senderClientId}`. -/
inductive ClientMsg : Type
  | join (clientId : String)
  | signal (kind : SignalKind) (targetClientId : String) (payload : String)
      (senderClientId : String)
  | muteState (muted : Bool) (senderClientId : String)
deriving DecidableEq, Repr

/-- A relay→client message: presence broadcasts, mute-state broadcasts,
policy errors, and the verbatim relay of a targeted signal message. -/
inductive ServerMsg : Type
  | userJoined (clientId : String)
  | userLeft (clientId : String)
  | muteStateMsg (senderClientId : String) (muted : Bool)
  | errorMsg (reason : String)
  | relayed (kind : SignalKind) (targetClientId : String) (payload : String)
      (senderClientId : String)
deriving DecidableEq, Repr

/-- A registry entry: `{ ws, connectionId }` — the channel handle and the
generation token minted when the channel was accepted. -/
structure Entry : Type where
  ws : Nat
  connectionId : Nat
deriving DecidableEq, Repr

/-- A rate-limit window: `{ count, windowStart }`. -/
structure RateWindow : Type where
  count : Nat
  windowStart : Nat
deriving DecidableEq, Repr

/-- The per-room state of the relay: `sessions`, `muteStates`, `rateLimits`. -/
structure ServerState : Type where
  sessions : List (String × Entry)
  muteStates : List (String × Bool)
  rateLimits : List (String × RateWindow)
deriving DecidableEq, Repr

/-- The per-channel local state of one `handleSession` invocation: the
channel handle, the `connectionId` generation token minted at accept time,
and the mutable local `clientId` variable (`null` until a join message). -/
structure ChannelState : Type where
  ws : Nat
  connectionId : Nat
  clientId : Option String
deriving DecidableEq, Repr

/-- An observable side effect of a handler: a successful `ws.send` or a
`ws.close(code)`. -/
inductive Effect : Type
  | send (ws : Nat) (msg : ServerMsg)
  | close (ws : Nat) (code : Nat)
deriving DecidableEq, Repr

/-- `RATE_LIMIT_WINDOW_MS = 10_000`. -/
def RATE_LIMIT_WINDOW_MS : Nat := 10000

/-- `RATE_LIMIT_MAX = 80`. -/
def RATE_LIMIT_MAX : Nat := 80

/-- `consumeRateLimit(clientId)`: start a fresh window (count 1, admit) when
none exists or the stored window is strictly older than the window duration;
otherwise reject once the count has reached the ceiling, else increment and
admit.  `now - windowStart` is JavaScript number subtraction; with the
monotone clock (`now ≥ windowStart`) Nat subtraction agrees with it, and for
a clock step backwards both produce a non-elapsed window.  Returns the
updated `rateLimits` table and the admission verdict. -/
def consumeRateLimit (now : Nat) (clientId : String)
    (rl : List (String × RateWindow)) : List (String × RateWindow) × Bool :=
  match mapGet rl clientId with
  | none => (mapSet rl clientId ⟨1, now⟩, true)
  | some current =>
    if RATE_LIMIT_WINDOW_MS < now - current.windowStart then
      (mapSet rl clientId ⟨1, now⟩, true)
    else if RATE_LIMIT_MAX ≤ current.count then
      (rl, false)
    else
      (mapSet rl clientId ⟨current.count + 1, current.windowStart⟩, true)

/-- The shared body of the three broadcast for-loops
(`broadcastUserJoined`, `broadcastUserLeft`, `broadcastMuteState`): walk the
snapshot of `sessions` (`pending`); skip the entry whose key is `skipId`
(`continue`); a successful `ws.send` is recorded as an effect; a throwing
send (`catch`) deletes that entry's key from the live `sessions` map and the
loop continues with the remaining recipients.  Returns the final `sessions`
map and the sends performed, in order. -/
def broadcastLoop (sendOk : Nat → Bool) (skipId : Option String) (msg : ServerMsg) :
    List (String × Entry) → List (String × Entry) →
      List (String × Entry) × List Effect
  | [], sessions => (sessions, [])
  | p :: rest, sessions =>
    if skipId = some p.1 then
      broadcastLoop sendOk skipId msg rest sessions
    else if sendOk p.2.ws then
      let r := broadcastLoop sendOk skipId msg rest sessions
      (r.1, Effect.send p.2.ws msg :: r.2)
    else
      broadcastLoop sendOk skipId msg rest (mapDelete sessions p.1)

/-- `broadcastUserJoined(newClientId)`: send `user-joined` to every session
except the joiner itself; a failed send evicts that target session. -/
def broadcastUserJoined (sendOk : Nat → Bool) (newClientId : String)
    (st : ServerState) : ServerState × List Effect :=
  let r := broadcastLoop sendOk (some newClientId) (ServerMsg.userJoined newClientId)
    st.sessions st.sessions
  ({ st with sessions := r.1 }, r.2)

/-- `broadcastUserLeft(clientId)`: send `user-left` to every session
(no skip); a failed send evicts that target session. -/
def broadcastUserLeft (sendOk : Nat → Bool) (clientId : String)
    (st : ServerState) : ServerState × List Effect :=
  let r := broadcastLoop sendOk none (ServerMsg.userLeft clientId)
    st.sessions st.sessions
  ({ st with sessions := r.1 }, r.2)

/-- `broadcastMuteState(senderClientId, muted)`: send `mute-state` to every
session except the announced sender; a failed send evicts that target. -/
def broadcastMuteState (sendOk : Nat → Bool) (senderClientId : String) (muted : Bool)
    (st : ServerState) : ServerState × List Effect :=
  let r := broadcastLoop sendOk (some senderClientId)
    (ServerMsg.muteStateMsg senderClientId muted) st.sessions st.sessions
  ({ st with sessions := r.1 }, r.2)

/-- `relayMessage(message)`: look up `targetClientId`; forward the validated
message verbatim when found (a throwing send evicts the target); when not
found, `console.warn` and drop — no error goes back to the sender. -/
def relayMessage (sendOk : Nat → Bool) (kind : SignalKind)
    (targetClientId payload senderClientId : String) (st : ServerState) :
    ServerState × List Effect :=
  match mapGet st.sessions targetClientId with
  | some target =>
    if sendOk target.ws then
      (st, [Effect.send target.ws
        (ServerMsg.relayed kind targetClientId payload senderClientId)])
    else
      ({ st with sessions := mapDelete st.sessions targetClientId }, [])
  | none => (st, [])

/-- `sendExistingMuteStates(targetWs)`: replay the whole mute-state cache to
one socket; a send failure there is swallowed (`catch` does nothing). -/
def sendExistingMuteStates (sendOk : Nat → Bool) (targetWs : Nat)
    (st : ServerState) : List Effect :=
  if sendOk targetWs then
    st.muteStates.map (fun p => Effect.send targetWs (ServerMsg.muteStateMsg p.1 p.2))
  else []

/-- The `message` event listener of `handleSession`, after JSON parsing and
schema validation (an invalid message is dropped before this point).
`join`: bind the local `clientId` variable, reject with an
`client-id-in-use` error plus `close(4409)` when the identity is already
registered (a throwing error-send aborts the handler before the close),
otherwise register `{ ws, connectionId }`, broadcast `user-joined` and
replay the mute cache to the joiner.  `offer/answer/ice-candidate`: when a
`clientId` is bound, consume the rate limit and `close(4410)` on rejection,
then relay.  `mute-state`: same rate-limit gate, then write the cache under
the message's `senderClientId` and broadcast it.  Returns the updated
channel state, server state and effects. -/
def handleClientMessage (sendOk : Nat → Bool) (now : Nat) (ch : ChannelState)
    (st : ServerState) : ClientMsg → ChannelState × ServerState × List Effect
  | ClientMsg.join c =>
    let ch' : ChannelState := { ch with clientId := some c }
    match mapGet st.sessions c with
    | some _ =>
      if sendOk ch.ws then
        (ch', st, [Effect.send ch.ws (ServerMsg.errorMsg "client-id-in-use"),
                   Effect.close ch.ws 4409])
      else
        (ch', st, [])
    | none =>
      let st1 : ServerState :=
        { st with sessions := mapSet st.sessions c ⟨ch.ws, ch.connectionId⟩ }
      let r := broadcastUserJoined sendOk c st1
      (ch', r.1, r.2 ++ sendExistingMuteStates sendOk ch.ws r.1)
  | ClientMsg.signal kind target payload sender =>
    match ch.clientId with
    | some c =>
      let rl := consumeRateLimit now c st.rateLimits
      if rl.2 then
        let r := relayMessage sendOk kind target payload sender
          { st with rateLimits := rl.1 }
        (ch, r.1, r.2)
      else
        (ch, { st with rateLimits := rl.1 }, [Effect.close ch.ws 4410])
    | none =>
      let r := relayMessage sendOk kind target payload sender st
      (ch, r.1, r.2)
  | ClientMsg.muteState muted sender =>
    match ch.clientId with
    | some c =>
      let rl := consumeRateLimit now c st.rateLimits
      if rl.2 then
        let r := broadcastMuteState sendOk sender muted
          { st with rateLimits := rl.1, muteStates := mapSet st.muteStates sender muted }
        (ch, r.1, r.2)
      else
        (ch, { st with rateLimits := rl.1 }, [Effect.close ch.ws 4410])
    | none =>
      let r := broadcastMuteState sendOk sender muted
        { st with muteStates := mapSet st.muteStates sender muted }
      (ch, r.1, r.2)

/-- The `close` event listener of `handleSession`: tear the session down —
delete it from the registry and the mute cache and broadcast `user-left` —
only when a `clientId` is bound, an entry is registered for it, and that
entry's generation token equals the one minted for this channel. -/
def handleClose (sendOk : Nat → Bool) (ch : ChannelState) (st : ServerState) :
    ServerState × List Effect :=
  match ch.clientId with
  | none => (st, [])
  | some c =>
    match mapGet st.sessions c with
    | some entry =>
      if entry.connectionId = ch.connectionId then
        broadcastUserLeft sendOk c
          { st with sessions := mapDelete st.sessions c,
                    muteStates := mapDelete st.muteStates c }
      else (st, [])
    | none => (st, [])

/-- The `error` event listener of `handleSession`; its body is the same
generation-guarded teardown as the `close` listener. -/
def handleErrorEvent (sendOk : Nat → Bool) (ch : ChannelState) (st : ServerState) :
    ServerState × List Effect :=
  match ch.clientId with
  | none => (st, [])
  | some c =>
    match mapGet st.sessions c with
    | some entry =>
      if entry.connectionId = ch.connectionId then
        broadcastUserLeft sendOk c
          { st with sessions := mapDelete st.sessions c,
                    muteStates := mapDelete st.muteStates c }
      else (st, [])
    | none => (st, [])

/-- A run of `consumeRateLimit` calls for one identity at the given
timestamps: the final table and the verdicts in order. -/
def runRequests (c : String) : List Nat → List (String × RateWindow) →
    List (String × RateWindow) × List Bool
  | [], rl => (rl, [])
  | t :: rest, rl =>
    let r := consumeRateLimit t c rl
    let r2 := runRequests c rest r.1
    (r2.1, r.2 :: r2.2)

/-! ## Client orchestrator model (`useWebRTC.ts`) -/

/-- A local audio `MediaStreamTrack`: its object identity (`id`), the device
it captures (`deviceId`), its mutable `enabled` flag, and whether `stop()`
has been called on it. -/
structure Track : Type where
  id : Nat
  deviceId : String
  enabled : Bool
  stopped : Bool
deriving DecidableEq, Repr

/-- One `RTCPeerConnection` as the orchestrator uses it: its object identity
(`pcId`, fresh at `new RTCPeerConnection`), whether `close()` was called,
and the track currently held by the audio `RTCRtpSender`
(`none` when no audio sender was ever attached). -/
structure PC : Type where
  pcId : Nat
  closed : Bool
  audioSenderTrack : Option Nat
deriving DecidableEq, Repr

/-- The orchestrator state the claims touch: the current local stream's
audio track (`localStreamRef`), the store of track objects, the
`peerConnections` map, the UI-facing `peers` map (remote id ↦ remote stream
id, when one has arrived), `lastBroadcastMuteState` and `selectedDeviceId`. -/
structure OrchState : Type where
  localTrack : Option Nat
  trackStore : List (Nat × Track)
  peerConnections : List (String × PC)
  peers : List (String × Option Nat)
  lastBroadcastMuteState : Option Bool
  selectedDeviceId : String
deriving DecidableEq, Repr

/-- `localStreamRef.current?.getAudioTracks()[0]?.enabled === false`. -/
def localWasMuted (st : OrchState) : Bool :=
  match st.localTrack with
  | none => false
  | some tid =>
    match mapGet st.trackStore tid with
    | none => false
    | some t => !t.enabled

/-- `track.stop()` on a stored track. -/
def stopTrack (store : List (Nat × Track)) (tid : Nat) : List (Nat × Track) :=
  match mapGet store tid with
  | none => store
  | some t => mapSet store tid { t with stopped := true }

/-- The `replaceTrack` loop of `refreshLocalStream`: for every peer
connection, find the audio sender and replace its outgoing track with the
new one; a connection without an audio sender is left alone.  No connection
is closed or recreated. -/
def replaceTrackAll (pcs : List (String × PC)) (newTid : Nat) :
    List (String × PC) :=
  pcs.map (fun p =>
    match p.2.audioSenderTrack with
    | some _ => (p.1, { p.2 with audioSenderTrack := some newTid })
    | none => p)

/-- `refreshLocalStream(deviceId?)`.  `acq` is the outcome of
`getUserMedia`: `some (newTid, actualDeviceId)` is a fresh enabled track and
the device its settings report, `none` is a rejection (caught and logged —
no state change).  On success: record whether the old stream was muted, stop
the old tracks, disable the new track if the old one was muted, install the
new stream, adopt the reported device id when non-empty, broadcast the
preserved mute flag, and replace the outgoing track on every live peer
connection.  Returns the new state and the messages sent to the relay. -/
def refreshLocalStream (acq : Option (Nat × String)) (clientId : String)
    (st : OrchState) : OrchState × List ClientMsg :=
  match acq with
  | none => (st, [])
  | some (newTid, actualDeviceId) =>
    let wasMuted := localWasMuted st
    let store1 :=
      match st.localTrack with
      | some old => stopTrack st.trackStore old
      | none => st.trackStore
    let newTrack : Track :=
      { id := newTid, deviceId := actualDeviceId, enabled := !wasMuted, stopped := false }
    let store2 := mapSet store1 newTid newTrack
    ({ localTrack := some newTid
       trackStore := store2
       peerConnections := replaceTrackAll st.peerConnections newTid
       peers := st.peers
       lastBroadcastMuteState := some wasMuted
       selectedDeviceId :=
         if actualDeviceId = "" then st.selectedDeviceId else actualDeviceId },
     [ClientMsg.muteState wasMuted clientId])

/-- `switchDevice(deviceId)`: no-op when the device is already selected,
otherwise select it and refresh the local stream on it. -/
def switchDevice (acq : Option (Nat × String)) (clientId : String)
    (deviceId : String) (st : OrchState) : OrchState × List ClientMsg :=
  if deviceId = st.selectedDeviceId then (st, [])
  else refreshLocalStream acq clientId { st with selectedDeviceId := deviceId }

/-- `createPeerConnection(targetClientId)`: when a connection already exists
for that id, log a warning and return the existing one unchanged; otherwise
create a fresh `RTCPeerConnection` (identity `freshPcId`), attach the local
tracks to it, and store it.  Returns the state and the connection used. -/
def createPeerConnection (freshPcId : Nat) (targetClientId : String)
    (st : OrchState) : OrchState × PC :=
  match mapGet st.peerConnections targetClientId with
  | some pc => (st, pc)
  | none =>
    let pc : PC := { pcId := freshPcId, closed := false, audioSenderTrack := st.localTrack }
    ({ st with peerConnections := mapSet st.peerConnections targetClientId pc }, pc)

/-- `handleUserJoined(newClientId)`: obtain the peer connection via
`createPeerConnection`, create an offer on it and send the offer addressed
to the newcomer ("offer-sdp" stands for the opaque session description). -/
def handleUserJoined (freshPcId : Nat) (localClientId newClientId : String)
    (st : OrchState) : OrchState × List ClientMsg :=
  let r := createPeerConnection freshPcId newClientId st
  (r.1, [ClientMsg.signal SignalKind.offer newClientId "offer-sdp" localClientId])

/-- The predicate under which a session entry survives a broadcast over
`pending`: no non-skipped pending entry with the same key had a failing
socket. -/
def survives (sendOk : Nat → Bool) (skipId : Option String)
    (pending : List (String × Entry)) (q : String × Entry) : Prop :=
  ∀ p ∈ pending, p.1 = q.1 → skipId = some p.1 ∨ sendOk p.2.ws = true

instance (sendOk : Nat → Bool) (skipId : Option String)
    (pending : List (String × Entry)) (q : String × Entry) :
    Decidable (survives sendOk skipId pending q) := by
  unfold survives; infer_instance

/-! ## Supporting lemmas about the broadcast loop and the rate limiter -/

/-- When every pending send succeeds, a broadcast leaves the session map
untouched and delivers the message to every non-skipped recipient in
order. -/
theorem broadcastLoop_all_ok (sendOk : Nat → Bool) (skipId : Option String)
    (msg : ServerMsg) (pending sessions : List (String × Entry))
    (h : ∀ p ∈ pending, sendOk p.2.ws = true) :
    broadcastLoop sendOk skipId msg pending sessions =
      (sessions,
       (pending.filter (fun p => decide (skipId ≠ some p.1))).map
         (fun p => Effect.send p.2.ws msg)) := by
  induction pending generalizing sessions with
  | nil => rfl
  | cons p rest ih =>
    have hp := h p (List.mem_cons_self _ _)
    have hrest : ∀ q ∈ rest, sendOk q.2.ws = true :=
      fun q hq => h q (List.mem_cons_of_mem _ hq)
    by_cases hs : skipId = some p.1
    · subst hs
      simp [broadcastLoop, ih _ hrest, List.filter_cons]
    · simp [broadcastLoop, hs, hp, ih _ hrest, List.filter_cons]

/-- The sends a broadcast performs: one message to each pending recipient
that is not skipped and whose socket accepts the send, in order; they do not
depend on the session map being mutated along the way. -/
theorem broadcastLoop_sendsEq (sendOk : Nat → Bool) (skipId : Option String)
    (msg : ServerMsg) (pending sessions : List (String × Entry)) :
    (broadcastLoop sendOk skipId msg pending sessions).2 =
      (pending.filter (fun p => decide (skipId ≠ some p.1) && sendOk p.2.ws)).map
        (fun p => Effect.send p.2.ws msg) := by
  induction pending generalizing sessions with
  | nil => rfl
  | cons p rest ih =>
    by_cases hs : skipId = some p.1
    · subst hs
      simp [broadcastLoop, ih, List.filter_cons]
    · by_cases hw : sendOk p.2.ws
      · simp [broadcastLoop, hs, hw, ih, List.filter_cons]
      · simp [broadcastLoop, hs, hw, ih, List.filter_cons]

/-- The session map a broadcast leaves behind: exactly the entries whose key
was not evicted by a failed send. -/
theorem broadcastLoop_fstEq (sendOk : Nat → Bool) (skipId : Option String)
    (msg : ServerMsg) (pending sessions : List (String × Entry)) :
    (broadcastLoop sendOk skipId msg pending sessions).1 =
      sessions.filter (fun q => decide (survives sendOk skipId pending q)) := by
  induction pending generalizing sessions with
  | nil =>
    simp only [broadcastLoop]
    exact (List.filter_eq_self.mpr (fun q _ => by simp [survives])).symm
  | cons p rest ih =>
    by_cases hs : skipId = some p.1
    · simp only [broadcastLoop, if_pos hs, ih]
      refine List.filter_congr (fun q _ => ?_)
      simp only [decide_eq_decide, survives, List.mem_cons]
      constructor
      · intro hq r hr h1
        rcases hr with rfl | hr
        · exact Or.inl hs
        · exact hq r hr h1
      · intro hq r hr h1
        exact hq r (Or.inr hr) h1
    · by_cases hw : sendOk p.2.ws
      · simp only [broadcastLoop, if_neg hs, if_pos hw, ih]
        refine List.filter_congr (fun q _ => ?_)
        simp only [decide_eq_decide, survives, List.mem_cons]
        constructor
        · intro hq r hr h1
          rcases hr with rfl | hr
          · exact Or.inr hw
          · exact hq r hr h1
        · intro hq r hr h1
          exact hq r (Or.inr hr) h1
      · simp only [broadcastLoop, if_neg hs, if_neg hw, ih, mapDelete,
          List.filter_filter]
        refine List.filter_congr (fun q _ => ?_)
        by_cases hpq : p.1 = q.1
        · have hns : ¬survives sendOk skipId (p :: rest) q := by
            intro hcon
            rcases hcon p (List.mem_cons_self _ _) hpq with h1 | h1
            · exact hs h1
            · exact hw h1
          have hqp : q.1 = p.1 := hpq.symm
          simp [hns, hqp]
        · have hiff : survives sendOk skipId (p :: rest) q ↔
              survives sendOk skipId rest q := by
            constructor
            · intro hq r hr h1
              exact hq r (List.mem_cons_of_mem _ hr) h1
            · intro hq r hr h1
              rcases List.mem_cons.mp hr with rfl | hr'
              · exact absurd h1 hpq
              · exact hq r hr' h1
          have hqp : ¬q.1 = p.1 := fun hc => hpq hc.symm
          simp [hiff, hqp]

/-- A run of requests inside one window (every timestamp within the window
duration of `t0`), starting from a stored window `⟨k, t0⟩`: the first
`RATE_LIMIT_MAX - k` requests are admitted, everything after is rejected,
and the stored window keeps `windowStart = t0` with the count capped at the
ceiling. -/
theorem runRequests_in_window (c : String) (t0 : Nat) :
    ∀ ts : List Nat, (∀ t ∈ ts, t - t0 ≤ RATE_LIMIT_WINDOW_MS) →
    ∀ k : Nat, k ≤ RATE_LIMIT_MAX →
    ∀ rl : List (String × RateWindow), mapGet rl c = some ⟨k, t0⟩ →
    (runRequests c ts rl).2 =
      List.replicate (min ts.length (RATE_LIMIT_MAX - k)) true ++
      List.replicate (ts.length - (RATE_LIMIT_MAX - k)) false ∧
    mapGet (runRequests c ts rl).1 c =
      some ⟨min (k + ts.length) RATE_LIMIT_MAX, t0⟩ := by
  intro ts
  induction ts with
  | nil =>
    intro _ k hk rl hrl
    refine ⟨by simp [runRequests], ?_⟩
    simpa [runRequests, Nat.min_eq_left hk] using hrl
  | cons t rest ih =>
    intro hts k hk rl hrl
    have hC : RATE_LIMIT_MAX = 80 := rfl
    have hwt : ¬(RATE_LIMIT_WINDOW_MS < t - t0) :=
      not_lt.mpr (hts t (List.mem_cons_self _ _))
    have hrest : ∀ s ∈ rest, s - t0 ≤ RATE_LIMIT_WINDOW_MS :=
      fun s hs => hts s (List.mem_cons_of_mem _ hs)
    by_cases hk80 : RATE_LIMIT_MAX ≤ k
    · have hkeq : k = RATE_LIMIT_MAX := le_antisymm hk hk80
      subst hkeq
      have hcr : consumeRateLimit t c rl = (rl, false) := by
        simp [consumeRateLimit, hrl, hwt]
      obtain ⟨h1, h2⟩ := ih hrest RATE_LIMIT_MAX le_rfl rl hrl
      constructor
      · simp only [runRequests, hcr, List.length_cons]
        rw [h1]
        have e0 : RATE_LIMIT_MAX - RATE_LIMIT_MAX = 0 := Nat.sub_self _
        rw [e0]
        simp [List.replicate_succ]
      · simp only [runRequests, hcr]
        rw [h2, List.length_cons]
        have e1 : min (RATE_LIMIT_MAX + rest.length) RATE_LIMIT_MAX =
            min (RATE_LIMIT_MAX + (rest.length + 1)) RATE_LIMIT_MAX := by omega
        rw [e1]
    · have hcr : consumeRateLimit t c rl = (mapSet rl c ⟨k + 1, t0⟩, true) := by
        simp [consumeRateLimit, hrl, hwt, hk80]
      have hget : mapGet (mapSet rl c ⟨k + 1, t0⟩) c = some ⟨k + 1, t0⟩ :=
        mapGet_mapSet_self _ _ _
      obtain ⟨h1, h2⟩ := ih hrest (k + 1) (by omega) _ hget
      constructor
      · simp only [runRequests, hcr, List.length_cons]
        rw [h1]
        have e1 : min (rest.length + 1) (RATE_LIMIT_MAX - k) =
            min rest.length (RATE_LIMIT_MAX - (k + 1)) + 1 := by omega
        have e2 : rest.length + 1 - (RATE_LIMIT_MAX - k) =
            rest.length - (RATE_LIMIT_MAX - (k + 1)) := by omega
        rw [e1, e2, List.replicate_succ, List.cons_append]
      · simp only [runRequests, hcr]
        rw [h2, List.length_cons]
        have e1 : min (k + 1 + rest.length) RATE_LIMIT_MAX =
            min (k + (rest.length + 1)) RATE_LIMIT_MAX := by omega
        rw [e1]

/-- Setting an absent key appends the new entry at the end, as `Map.set`
does. -/
theorem mapSet_of_absent {κ α : Type} [DecidableEq κ] (m : List (κ × α)) (k : κ)
    (v : α) (h : mapGet m k = none) : mapSet m k v = m ++ [(k, v)] := by
  induction m with
  | nil => rfl
  | cons p rest ih =>
    rw [mapGet_cons] at h
    by_cases hp : p.1 = k
    · simp [hp] at h
    · simp only [hp, if_neg hp, if_false] at h
      simp [mapSet, hp, ih h]

/-- `Map.set` preserves uniqueness of keys. -/
theorem mapSet_keys_nodup {κ α : Type} [DecidableEq κ] (m : List (κ × α)) (k : κ)
    (v : α) (h : (m.map Prod.fst).Nodup) : ((mapSet m k v).map Prod.fst).Nodup := by
  induction m with
  | nil => simp [mapSet]
  | cons p rest ih =>
    by_cases hp : p.1 = k
    · subst hp
      simpa [mapSet] using h
    · simp only [List.map_cons, List.nodup_cons] at h
      obtain ⟨h1, h2⟩ := h
      simp only [mapSet, if_neg hp, List.map_cons, List.nodup_cons]
      refine ⟨?_, ih h2⟩
      intro hmem
      rcases List.mem_map.mp hmem with ⟨q, hq, hq1⟩
      rcases mem_mapSet hq with rfl | hq'
      · exact hp hq1.symm
      · exact h1 (List.mem_map.mpr ⟨q, hq', hq1⟩)

/-- Replacing the outgoing track never changes which connections exist, nor
their identity or closed flag. -/
theorem replaceTrackAll_preserves (pcs : List (String × PC)) (newTid : Nat) :
    (replaceTrackAll pcs newTid).map (fun p => (p.1, p.2.pcId, p.2.closed)) =
      pcs.map (fun p => (p.1, p.2.pcId, p.2.closed)) := by
  unfold replaceTrackAll
  rw [List.map_map]
  refine List.map_congr_left (fun p _ => ?_)
  cases hp : p.2.audioSenderTrack <;> simp [hp]

/-- Pointwise effect of the `replaceTrack` loop: a connection with an audio
sender now sends the new track; one without is untouched. -/
theorem replaceTrackAll_pointwise (pcs : List (String × PC)) (newTid : Nat) :
    List.Forall₂
      (fun p q => p.1 = q.1 ∧ p.2.pcId = q.2.pcId ∧ p.2.closed = q.2.closed ∧
        (p.2.audioSenderTrack.isSome → q.2.audioSenderTrack = some newTid) ∧
        (p.2.audioSenderTrack = none → q = p))
      pcs (replaceTrackAll pcs newTid) := by
  induction pcs with
  | nil => exact List.Forall₂.nil
  | cons p rest ih =>
    refine List.Forall₂.cons ?_ ih
    cases hp : p.2.audioSenderTrack with
    | none => simp [replaceTrackAll, hp]
    | some tid => simp [replaceTrackAll, hp]

/-! ## Claim theorems -/

/-- C1: for a registered identity, a channel close or error event tears the
session down (deleting it from the registry and the mute cache and
broadcasting `user-left` to the remaining sessions) if and only if the
generation token recorded when the channel was accepted equals the one
currently registered for that identity; a stale event leaves the whole
server state unchanged and performs no effect. -/
theorem close_teardown_iff_generation_matches (sendOk : Nat → Bool)
    (ch : ChannelState) (st : ServerState) (c : String) (entry : Entry)
    (hc : ch.clientId = some c) (hreg : mapGet st.sessions c = some entry)
    (hok : ∀ p ∈ st.sessions, sendOk p.2.ws = true) :
    (entry.connectionId = ch.connectionId →
      handleClose sendOk ch st =
        (⟨mapDelete st.sessions c, mapDelete st.muteStates c, st.rateLimits⟩,
         (mapDelete st.sessions c).map
           (fun p => Effect.send p.2.ws (ServerMsg.userLeft c))) ∧
      handleErrorEvent sendOk ch st =
        (⟨mapDelete st.sessions c, mapDelete st.muteStates c, st.rateLimits⟩,
         (mapDelete st.sessions c).map
           (fun p => Effect.send p.2.ws (ServerMsg.userLeft c)))) ∧
    (entry.connectionId ≠ ch.connectionId →
      handleClose sendOk ch st = (st, []) ∧
      handleErrorEvent sendOk ch st = (st, [])) := by
  have hok' : ∀ p ∈ mapDelete st.sessions c, sendOk p.2.ws = true :=
    fun p hp => hok p (mem_of_mem_mapDelete hp)
  constructor
  · intro hgen
    constructor
    · simp only [handleClose, hc, hreg, if_pos hgen, broadcastUserLeft]
      rw [broadcastLoop_all_ok _ _ _ _ _ hok']
      simp
    · simp only [handleErrorEvent, hc, hreg, if_pos hgen, broadcastUserLeft]
      rw [broadcastLoop_all_ok _ _ _ _ _ hok']
      simp
  · intro hgen
    exact ⟨by simp [handleClose, hc, hreg, hgen],
           by simp [handleErrorEvent, hc, hreg, hgen]⟩

/-- Witness for C1 at a concrete registry: a matching close tears down
exactly the closing identity and notifies the survivor; a stale close
(generation 99 against registered generation 10) changes nothing. -/
theorem close_teardown_iff_generation_matches_witness :
    handleClose (fun _ => true) ⟨1, 10, some "x"⟩
        ⟨[("x", ⟨1, 10⟩), ("y", ⟨2, 20⟩)], [("x", true), ("y", false)], []⟩ =
      (⟨[("y", ⟨2, 20⟩)], [("y", false)], []⟩,
       [Effect.send 2 (ServerMsg.userLeft "x")]) ∧
    handleClose (fun _ => true) ⟨1, 99, some "x"⟩
        ⟨[("x", ⟨1, 10⟩), ("y", ⟨2, 20⟩)], [("x", true), ("y", false)], []⟩ =
      (⟨[("x", ⟨1, 10⟩), ("y", ⟨2, 20⟩)], [("x", true), ("y", false)], []⟩, []) := by
  constructor
  · have h := (close_teardown_iff_generation_matches (fun _ => true)
      ⟨1, 10, some "x"⟩
      ⟨[("x", ⟨1, 10⟩), ("y", ⟨2, 20⟩)], [("x", true), ("y", false)], []⟩
      "x" ⟨1, 10⟩ rfl (by decide) (by decide)).1 rfl
    exact h.1.trans (by decide)
  · have h := (close_teardown_iff_generation_matches (fun _ => true)
      ⟨1, 99, some "x"⟩
      ⟨[("x", ⟨1, 10⟩), ("y", ⟨2, 20⟩)], [("x", true), ("y", false)], []⟩
      "x" ⟨1, 10⟩ rfl (by decide) (by decide)).2 (by decide)
    exact h.1.trans (by decide)

/-- C2: a join claiming an identity that already has an active session is
answered with an `client-id-in-use` error and a close with the
distinguishable code 4409 on the new channel only; the server state
(registry with its generation tokens, mute cache, rate limits) is returned
unchanged and no broadcast or mute-cache replay happens. -/
theorem duplicate_join_rejected (sendOk : Nat → Bool) (now : Nat)
    (ch : ChannelState) (st : ServerState) (c : String) (entry : Entry)
    (hreg : mapGet st.sessions c = some entry) (hok : sendOk ch.ws = true) :
    handleClientMessage sendOk now ch st (ClientMsg.join c) =
      ({ ch with clientId := some c }, st,
       [Effect.send ch.ws (ServerMsg.errorMsg "client-id-in-use"),
        Effect.close ch.ws 4409]) := by
  simp [handleClientMessage, hreg, hok]

/-- Witness for C2: a duplicate join for "x" (held with generation 10) is
rejected, the holder's entry is untouched, and the only effects are the
error message and the 4409 close on the joining channel. -/
theorem duplicate_join_rejected_witness :
    handleClientMessage (fun _ => true) 0 ⟨5, 50, none⟩
        ⟨[("x", ⟨1, 10⟩)], [("x", true)], []⟩ (ClientMsg.join "x") =
      (⟨5, 50, some "x"⟩, ⟨[("x", ⟨1, 10⟩)], [("x", true)], []⟩,
       [Effect.send 5 (ServerMsg.errorMsg "client-id-in-use"),
        Effect.close 5 4409]) := by
  have h := duplicate_join_rejected (fun _ => true) 0 ⟨5, 50, none⟩
    ⟨[("x", ⟨1, 10⟩)], [("x", true)], []⟩ "x" ⟨1, 10⟩ (by decide) rfl
  exact h.trans (by decide)

/-- C3: for a single identity, a request with no stored window is admitted
and starts a fresh window with count 1; within one window exactly
`RATE_LIMIT_MAX` (80) admissions succeed — the run over `t0 :: ts`, all
timestamps within the 10-second window of `t0`, answers `true` exactly
`min (ts.length + 1) 80` times and `false` for the 81st and every later
request — and once the window duration has elapsed the next request is
admitted again with a fresh window of count 1. -/
theorem rate_limit_window_run (c : String) (t0 : Nat) (ts : List Nat)
    (hts : ∀ t ∈ ts, t - t0 ≤ RATE_LIMIT_WINDOW_MS) (t' : Nat)
    (h' : RATE_LIMIT_WINDOW_MS < t' - t0) :
    (runRequests c (t0 :: ts) []).2 =
      List.replicate (min (ts.length + 1) RATE_LIMIT_MAX) true ++
      List.replicate (ts.length + 1 - RATE_LIMIT_MAX) false ∧
    consumeRateLimit t' c (runRequests c (t0 :: ts) []).1 =
      (mapSet (runRequests c (t0 :: ts) []).1 c ⟨1, t'⟩, true) := by
  have hC : RATE_LIMIT_MAX = 80 := rfl
  have hcr : consumeRateLimit t0 c [] = ([(c, ⟨1, t0⟩)], true) := rfl
  have hget : mapGet [(c, (⟨1, t0⟩ : RateWindow))] c = some ⟨1, t0⟩ := by
    simp [mapGet]
  obtain ⟨h1, h2⟩ := runRequests_in_window c t0 ts hts 1 (by omega) _ hget
  constructor
  · simp only [runRequests, hcr]
    rw [h1]
    have e1 : min (ts.length + 1) RATE_LIMIT_MAX =
        min ts.length (RATE_LIMIT_MAX - 1) + 1 := by omega
    have e2 : ts.length + 1 - RATE_LIMIT_MAX = ts.length - (RATE_LIMIT_MAX - 1) := by
      omega
    rw [e1, e2, List.replicate_succ, List.cons_append]
  · simp only [runRequests, hcr]
    have h2' : mapGet (runRequests c ts [(c, (⟨1, t0⟩ : RateWindow))]).1 c =
        some ⟨min (1 + ts.length) RATE_LIMIT_MAX, t0⟩ := h2
    simp [consumeRateLimit, h2', h']

/-- Witness for C3: from an empty table, 85 requests inside one window are
admitted exactly 80 times and rejected 5 times, and a request at 20000 ms
(outside the window) is admitted again with a fresh window. -/
theorem rate_limit_window_run_witness :
    (runRequests "a" (0 :: List.replicate 84 3) []).2 =
      List.replicate 80 true ++ List.replicate 5 false ∧
    consumeRateLimit 20000 "a" (runRequests "a" (0 :: List.replicate 84 3) []).1 =
      (mapSet (runRequests "a" (0 :: List.replicate 84 3) []).1 "a" ⟨1, 20000⟩,
       true) := by
  have h := rate_limit_window_run "a" 0 (List.replicate 84 3)
    (by decide) 20000 (by decide)
  simpa using h

/-- Core of the one-failure broadcast analysis: when exactly the entries
keyed `fid` have a failing socket and `fid` is not the skipped identity, a
broadcast deletes exactly `fid` from the session map and still sends the
message to every other non-skipped recipient. -/
theorem broadcastLoop_one_fail (sendOk : Nat → Bool) (skipId : Option String)
    (msg : ServerMsg) (sessions : List (String × Entry)) (fid : String) (fe : Entry)
    (hmem : (fid, fe) ∈ sessions)
    (hfail : ∀ p ∈ sessions, sendOk p.2.ws = decide (p.1 ≠ fid))
    (hskip : skipId ≠ some fid) :
    (broadcastLoop sendOk skipId msg sessions sessions).1 = mapDelete sessions fid ∧
    (broadcastLoop sendOk skipId msg sessions sessions).2 =
      (sessions.filter (fun p => decide (skipId ≠ some p.1) && decide (p.1 ≠ fid))).map
        (fun p => Effect.send p.2.ws msg) := by
  have hfe : sendOk fe.ws = false := by
    have := hfail (fid, fe) hmem
    simpa using this
  constructor
  · rw [broadcastLoop_fstEq]
    simp only [mapDelete]
    refine List.filter_congr (fun q hq => ?_)
    apply decide_eq_decide.mpr
    constructor
    · intro hs hqf
      rcases hs (fid, fe) hmem hqf.symm with h1 | h1
      · exact hskip h1
      · rw [hfe] at h1; cases h1
    · intro hq p hp hpq
      refine Or.inr ?_
      rw [hfail p hp]
      simp [hpq, hq]
  · rw [broadcastLoop_sendsEq]
    congr 1
    refine List.filter_congr (fun p hp => ?_)
    rw [hfail p hp]

/-- C6: a broadcast (`user-joined`, `user-left` or `mute-state`) over a
registry in which exactly one recipient's socket fails evicts only that
recipient's session, leaves the mute cache and rate limits alone, and still
delivers the message to every other (non-skipped) recipient — the broadcast
is never aborted as a whole. -/
theorem broadcast_failure_evicts_only_target (sendOk : Nat → Bool)
    (st : ServerState) (fid : String) (fe : Entry) (cid : String) (m : Bool)
    (hmem : (fid, fe) ∈ st.sessions)
    (hfail : ∀ p ∈ st.sessions, sendOk p.2.ws = decide (p.1 ≠ fid))
    (hcid : fid ≠ cid) :
    (broadcastUserJoined sendOk cid st).1.sessions = mapDelete st.sessions fid ∧
    (broadcastUserJoined sendOk cid st).1.muteStates = st.muteStates ∧
    (broadcastUserJoined sendOk cid st).2 =
      (st.sessions.filter (fun p => decide (p.1 ≠ cid) && decide (p.1 ≠ fid))).map
        (fun p => Effect.send p.2.ws (ServerMsg.userJoined cid)) ∧
    (broadcastUserLeft sendOk cid st).1.sessions = mapDelete st.sessions fid ∧
    (broadcastUserLeft sendOk cid st).1.muteStates = st.muteStates ∧
    (broadcastUserLeft sendOk cid st).2 =
      (st.sessions.filter (fun p => decide (p.1 ≠ fid))).map
        (fun p => Effect.send p.2.ws (ServerMsg.userLeft cid)) ∧
    (broadcastMuteState sendOk cid m st).1.sessions = mapDelete st.sessions fid ∧
    (broadcastMuteState sendOk cid m st).1.muteStates = st.muteStates ∧
    (broadcastMuteState sendOk cid m st).2 =
      (st.sessions.filter (fun p => decide (p.1 ≠ cid) && decide (p.1 ≠ fid))).map
        (fun p => Effect.send p.2.ws (ServerMsg.muteStateMsg cid m)) := by
  have hskip : (some cid : Option String) ≠ some fid := by
    intro h
    exact hcid (Option.some.inj h).symm
  obtain ⟨hj1, hj2⟩ := broadcastLoop_one_fail sendOk (some cid)
    (ServerMsg.userJoined cid) st.sessions fid fe hmem hfail hskip
  obtain ⟨hl1, hl2⟩ := broadcastLoop_one_fail sendOk none
    (ServerMsg.userLeft cid) st.sessions fid fe hmem hfail (by simp)
  obtain ⟨hm1, hm2⟩ := broadcastLoop_one_fail sendOk (some cid)
    (ServerMsg.muteStateMsg cid m) st.sessions fid fe hmem hfail hskip
  refine ⟨hj1, rfl, ?_, hl1, rfl, ?_, hm1, rfl, ?_⟩
  · rw [show (broadcastUserJoined sendOk cid st).2 =
        (broadcastLoop sendOk (some cid) (ServerMsg.userJoined cid)
          st.sessions st.sessions).2 from rfl, hj2]
    congr 1
    refine List.filter_congr (fun p _ => ?_)
    congr 1
    apply decide_eq_decide.mpr
    simp [ne_comm]
  · rw [show (broadcastUserLeft sendOk cid st).2 =
        (broadcastLoop sendOk none (ServerMsg.userLeft cid)
          st.sessions st.sessions).2 from rfl, hl2]
    congr 1
  · rw [show (broadcastMuteState sendOk cid m st).2 =
        (broadcastLoop sendOk (some cid) (ServerMsg.muteStateMsg cid m)
          st.sessions st.sessions).2 from rfl, hm2]
    congr 1
    refine List.filter_congr (fun p _ => ?_)
    congr 1
    apply decide_eq_decide.mpr
    simp [ne_comm]

/-- Witness for C6: with three sessions and the middle one ("f", socket 2)
dead, a `user-joined` broadcast for "a" still reaches "b", the dead session
alone is evicted, and the mute cache survives; same for `user-left` and
`mute-state`. -/
theorem broadcast_failure_evicts_only_target_witness :
    (broadcastUserJoined (fun w => decide (w ≠ 2)) "a"
        ⟨[("a", ⟨1, 10⟩), ("f", ⟨2, 20⟩), ("b", ⟨3, 30⟩)], [("a", true)], []⟩).1.sessions =
      [("a", ⟨1, 10⟩), ("b", ⟨3, 30⟩)] ∧
    (broadcastUserJoined (fun w => decide (w ≠ 2)) "a"
        ⟨[("a", ⟨1, 10⟩), ("f", ⟨2, 20⟩), ("b", ⟨3, 30⟩)], [("a", true)], []⟩).2 =
      [Effect.send 3 (ServerMsg.userJoined "a")] := by
  have h := broadcast_failure_evicts_only_target (fun w => decide (w ≠ 2))
    ⟨[("a", ⟨1, 10⟩), ("f", ⟨2, 20⟩), ("b", ⟨3, 30⟩)], [("a", true)], []⟩
    "f" ⟨2, 20⟩ "a" true (by decide) (by decide) (by decide)
  exact ⟨h.1.trans (by decide), (h.2.2.1).trans (by decide)⟩

/-- C7: an accepted join of a new identity registers the session under the
generation token minted when the channel was accepted (distinct from every
other registered generation), sends `user-joined` to every other currently
registered session and not to the joiner, and then replays the mute-state
cache — one `mute-state` message per cached participant — to the joining
channel only. -/
theorem join_registers_broadcasts_and_replays (sendOk : Nat → Bool) (now : Nat)
    (ch : ChannelState) (st : ServerState) (c : String)
    (hnew : mapGet st.sessions c = none)
    (hok : ∀ p ∈ st.sessions, sendOk p.2.ws = true) (hokch : sendOk ch.ws = true)
    (hfresh : ∀ p ∈ st.sessions, p.2.connectionId ≠ ch.connectionId) :
    handleClientMessage sendOk now ch st (ClientMsg.join c) =
      ({ ch with clientId := some c },
       { st with sessions := mapSet st.sessions c ⟨ch.ws, ch.connectionId⟩ },
       st.sessions.map (fun p => Effect.send p.2.ws (ServerMsg.userJoined c)) ++
       st.muteStates.map (fun p => Effect.send ch.ws (ServerMsg.muteStateMsg p.1 p.2))) ∧
    (∀ p ∈ mapSet st.sessions c ⟨ch.ws, ch.connectionId⟩, p.1 ≠ c →
      p.2.connectionId ≠ ch.connectionId) := by
  have hkeys : ∀ p ∈ st.sessions, p.1 ≠ c := mapGet_eq_none_iff.mp hnew
  have happ : mapSet st.sessions c ⟨ch.ws, ch.connectionId⟩ =
      st.sessions ++ [(c, ⟨ch.ws, ch.connectionId⟩)] := mapSet_of_absent _ _ _ hnew
  have hok' : ∀ p ∈ mapSet st.sessions c ⟨ch.ws, ch.connectionId⟩,
      sendOk p.2.ws = true := by
    intro p hp
    rcases mem_mapSet hp with rfl | hp'
    · exact hokch
    · exact hok p hp'
  constructor
  · simp only [handleClientMessage, hnew, broadcastUserJoined]
    rw [broadcastLoop_all_ok _ _ _ _ _ hok']
    have hfilter : (mapSet st.sessions c ⟨ch.ws, ch.connectionId⟩).filter
        (fun p => decide ((some c : Option String) ≠ some p.1)) = st.sessions := by
      rw [happ, List.filter_append]
      have h1 : st.sessions.filter
          (fun p => decide ((some c : Option String) ≠ some p.1)) = st.sessions :=
        List.filter_eq_self.mpr (fun p hp => by simp [Ne.symm (hkeys p hp)])
      have h2 : ([(c, (⟨ch.ws, ch.connectionId⟩ : Entry))]).filter
          (fun p => decide ((some c : Option String) ≠ some p.1)) = [] := by
        simp
      rw [h1, h2, List.append_nil]
    rw [hfilter]
    simp [sendExistingMuteStates, hokch]
  · intro p hp hpc
    rcases mem_mapSet hp with rfl | hp'
    · exact absurd rfl hpc
    · exact hfresh p hp'

/-- Witness for C7: "c" joins over channel 9 (generation 90) while "a" and
"b" are registered with mute states cached; the registry gains "c" with
generation 90, `user-joined{c}` goes to sockets 1 and 2 only, and the two
cached mute states are replayed to socket 9 only. -/
theorem join_registers_broadcasts_and_replays_witness :
    handleClientMessage (fun _ => true) 0 ⟨9, 90, none⟩
        ⟨[("a", ⟨1, 10⟩), ("b", ⟨2, 20⟩)], [("a", true), ("b", false)], []⟩
        (ClientMsg.join "c") =
      (⟨9, 90, some "c"⟩,
       ⟨[("a", ⟨1, 10⟩), ("b", ⟨2, 20⟩), ("c", ⟨9, 90⟩)],
        [("a", true), ("b", false)], []⟩,
       [Effect.send 1 (ServerMsg.userJoined "c"),
        Effect.send 2 (ServerMsg.userJoined "c"),
        Effect.send 9 (ServerMsg.muteStateMsg "a" true),
        Effect.send 9 (ServerMsg.muteStateMsg "b" false)]) := by
  have h := join_registers_broadcasts_and_replays (fun _ => true) 0 ⟨9, 90, none⟩
    ⟨[("a", ⟨1, 10⟩), ("b", ⟨2, 20⟩)], [("a", true), ("b", false)], []⟩ "c"
    (by decide) (by decide) rfl (by decide)
  exact h.1.trans (by decide)

/-- C9: a validated `mute-state` message from a joined, rate-admitted
channel writes the cache entry and announces the identity taken from the
message's caller-supplied `senderClientId` field (`other` here), for any
value of that field — no comparison with the identity `c` registered for
the channel occurs — so a joined session can overwrite and broadcast the
cached mute state of a different participant. -/
theorem mute_state_trusts_sender_field (sendOk : Nat → Bool) (now : Nat)
    (ch : ChannelState) (st : ServerState) (c other : String) (m : Bool)
    (hc : ch.clientId = some c)
    (hadmOk : (consumeRateLimit now c st.rateLimits).2 = true)
    (hok : ∀ p ∈ st.sessions, sendOk p.2.ws = true) :
    (handleClientMessage sendOk now ch st
        (ClientMsg.muteState m other)).2.1.muteStates =
      mapSet st.muteStates other m ∧
    mapGet (handleClientMessage sendOk now ch st
        (ClientMsg.muteState m other)).2.1.muteStates other = some m ∧
    (handleClientMessage sendOk now ch st (ClientMsg.muteState m other)).2.2 =
      (st.sessions.filter
          (fun p => decide ((some other : Option String) ≠ some p.1))).map
        (fun p => Effect.send p.2.ws (ServerMsg.muteStateMsg other m)) := by
  simp only [handleClientMessage, hc, hadmOk, if_true, broadcastMuteState]
  rw [broadcastLoop_all_ok _ _ _ _ _ hok]
  simp

/-- Witness for C9: "b" (channel 2, registered as "b") sends
`mute-state{senderClientId: "a", muted: true}`; the cache entry for "a"
flips from `false` to `true` and the broadcast announcing "a" is delivered
to "b" (the skip applies to the spoofed id "a", not to the actual sender). -/
theorem mute_state_trusts_sender_field_witness :
    (handleClientMessage (fun _ => true) 0 ⟨2, 20, some "b"⟩
        ⟨[("a", ⟨1, 10⟩), ("b", ⟨2, 20⟩)], [("a", false)], []⟩
        (ClientMsg.muteState true "a")).2.1.muteStates = [("a", true)] ∧
    (handleClientMessage (fun _ => true) 0 ⟨2, 20, some "b"⟩
        ⟨[("a", ⟨1, 10⟩), ("b", ⟨2, 20⟩)], [("a", false)], []⟩
        (ClientMsg.muteState true "a")).2.2 =
      [Effect.send 2 (ServerMsg.muteStateMsg "a" true)] := by
  have h := mute_state_trusts_sender_field (fun _ => true) 0 ⟨2, 20, some "b"⟩
    ⟨[("a", ⟨1, 10⟩), ("b", ⟨2, 20⟩)], [("a", false)], []⟩ "b" "a" true rfl
    (by decide) (by decide)
  exact ⟨h.1.trans (by decide), h.2.2.trans (by decide)⟩

/-- C10: a channel already joined as `x` that sends a second join with an
unregistered identity `y` gets `y` registered (same socket, same generation)
while `x` stays registered; the subsequent close of that channel tears down
only `y` — the most recently bound identity — and leaves `x` registered
with the now-dead socket. -/
theorem second_join_leaks_first_identity (sendOk : Nat → Bool) (now : Nat)
    (ch : ChannelState) (st : ServerState) (x y : String)
    (hc : ch.clientId = some x)
    (hx : mapGet st.sessions x = some ⟨ch.ws, ch.connectionId⟩)
    (hy : mapGet st.sessions y = none) (hxy : x ≠ y)
    (hok : ∀ p ∈ st.sessions, sendOk p.2.ws = true)
    (hokch : sendOk ch.ws = true) :
    (handleClientMessage sendOk now ch st (ClientMsg.join y)).1.clientId = some y ∧
    mapGet (handleClientMessage sendOk now ch st (ClientMsg.join y)).2.1.sessions x =
      some ⟨ch.ws, ch.connectionId⟩ ∧
    mapGet (handleClientMessage sendOk now ch st (ClientMsg.join y)).2.1.sessions y =
      some ⟨ch.ws, ch.connectionId⟩ ∧
    mapGet (handleClose sendOk
        (handleClientMessage sendOk now ch st (ClientMsg.join y)).1
        (handleClientMessage sendOk now ch st (ClientMsg.join y)).2.1).1.sessions y =
      none ∧
    mapGet (handleClose sendOk
        (handleClientMessage sendOk now ch st (ClientMsg.join y)).1
        (handleClientMessage sendOk now ch st (ClientMsg.join y)).2.1).1.sessions x =
      some ⟨ch.ws, ch.connectionId⟩ := by
  have hok' : ∀ p ∈ mapSet st.sessions y ⟨ch.ws, ch.connectionId⟩,
      sendOk p.2.ws = true := by
    intro p hp
    rcases mem_mapSet hp with rfl | hp'
    · exact hokch
    · exact hok p hp'
  have hmsg : handleClientMessage sendOk now ch st (ClientMsg.join y) =
      ({ ch with clientId := some y },
       { st with sessions := mapSet st.sessions y ⟨ch.ws, ch.connectionId⟩ },
       ((mapSet st.sessions y ⟨ch.ws, ch.connectionId⟩).filter
          (fun p => decide ((some y : Option String) ≠ some p.1))).map
         (fun p => Effect.send p.2.ws (ServerMsg.userJoined y)) ++
       sendExistingMuteStates sendOk ch.ws
         { st with sessions := mapSet st.sessions y ⟨ch.ws, ch.connectionId⟩ }) := by
    simp only [handleClientMessage, hy, broadcastUserJoined]
    rw [broadcastLoop_all_ok _ _ _ _ _ hok']
  rw [hmsg]
  have hgx : mapGet (mapSet st.sessions y ⟨ch.ws, ch.connectionId⟩) x =
      some ⟨ch.ws, ch.connectionId⟩ := by
    rw [mapGet_mapSet_ne _ _ _ _ hxy]; exact hx
  have hgy : mapGet (mapSet st.sessions y ⟨ch.ws, ch.connectionId⟩) y =
      some ⟨ch.ws, ch.connectionId⟩ := mapGet_mapSet_self _ _ _
  refine ⟨rfl, hgx, hgy, ?_, ?_⟩
  all_goals
    have hok'' : ∀ p ∈ mapDelete (mapSet st.sessions y ⟨ch.ws, ch.connectionId⟩) y,
        sendOk p.2.ws = true :=
      fun p hp => hok' p (mem_of_mem_mapDelete hp)
    have hcl : handleClose sendOk { ch with clientId := some y }
        { st with sessions := mapSet st.sessions y ⟨ch.ws, ch.connectionId⟩ } =
        ({ st with
            sessions := mapDelete (mapSet st.sessions y ⟨ch.ws, ch.connectionId⟩) y,
            muteStates := mapDelete st.muteStates y },
         ((mapDelete (mapSet st.sessions y ⟨ch.ws, ch.connectionId⟩) y).filter
            (fun p => decide ((none : Option String) ≠ some p.1))).map
           (fun p => Effect.send p.2.ws (ServerMsg.userLeft y))) := by
      simp only [handleClose, hgy, broadcastUserLeft]
      rw [broadcastLoop_all_ok _ _ _ _ _ hok'']
      simp
    rw [hcl]
  · exact mapGet_mapDelete_self _ _
  · rw [mapGet_mapDelete_ne _ _ _ hxy]
    exact hgx

/-- Witness for C10: channel 1 (generation 10) joined as "x", then joins as
"y"; both identities map to socket 1; after the close event only "y" is
removed and "x" still maps to the dead socket 1. -/
theorem second_join_leaks_first_identity_witness :
    (handleClientMessage (fun _ => true) 0 ⟨1, 10, some "x"⟩
        ⟨[("x", ⟨1, 10⟩)], [], []⟩ (ClientMsg.join "y")).1.clientId = some "y" ∧
    mapGet (handleClose (fun _ => true)
        (handleClientMessage (fun _ => true) 0 ⟨1, 10, some "x"⟩
          ⟨[("x", ⟨1, 10⟩)], [], []⟩ (ClientMsg.join "y")).1
        (handleClientMessage (fun _ => true) 0 ⟨1, 10, some "x"⟩
          ⟨[("x", ⟨1, 10⟩)], [], []⟩ (ClientMsg.join "y")).2.1).1.sessions "y" =
      none ∧
    mapGet (handleClose (fun _ => true)
        (handleClientMessage (fun _ => true) 0 ⟨1, 10, some "x"⟩
          ⟨[("x", ⟨1, 10⟩)], [], []⟩ (ClientMsg.join "y")).1
        (handleClientMessage (fun _ => true) 0 ⟨1, 10, some "x"⟩
          ⟨[("x", ⟨1, 10⟩)], [], []⟩ (ClientMsg.join "y")).2.1).1.sessions "x" =
      some ⟨1, 10⟩ := by
  have h := second_join_leaks_first_identity (fun _ => true) 0 ⟨1, 10, some "x"⟩
    ⟨[("x", ⟨1, 10⟩)], [], []⟩ "x" "y" rfl (by decide) (by decide) (by decide)
    (by decide) rfl
  exact ⟨h.1, h.2.2.2.1, h.2.2.2.2⟩

/-- Counterexample to C4 as stated: a channel that has never completed a
join (`clientId` still `none`) sends an offer, and the relay forwards it to
the registered target "B" (socket 7) anyway — the message-relay path checks
`clientId` only to decide whether to consume the rate limit, never to
require a registered session. -/
theorem relay_without_join_counterexample :
    (handleClientMessage (fun _ => true) 0 ⟨1, 10, none⟩
        ⟨[("B", ⟨7, 70⟩)], [], []⟩
        (ClientMsg.signal SignalKind.offer "B" "sdp" "spoofed")).2.2 =
      [Effect.send 7 (ServerMsg.relayed SignalKind.offer "B" "sdp" "spoofed")] := by
  decide

/-- C4 (amended): a validated offer/answer/ice-candidate is forwarded
verbatim to the session registered under `targetClientId` whenever the
sending channel's bound identity — if any — passes the rate limiter; a
channel whose bound identity fails the rate limiter is closed with code
4410 and nothing is relayed; a channel with no bound identity bypasses the
rate limiter and still has its message relayed; and when the target
identity is not registered the message is dropped (logged) with no effect
at all — no error goes back to the sender. -/
theorem relay_forwards_verbatim (sendOk : Nat → Bool) (now : Nat)
    (ch : ChannelState) (st : ServerState) (kind : SignalKind)
    (target payload sender : String) :
    (∀ c, ch.clientId = some c →
      (consumeRateLimit now c st.rateLimits).2 = false →
      handleClientMessage sendOk now ch st
          (ClientMsg.signal kind target payload sender) =
        (ch, { st with rateLimits := (consumeRateLimit now c st.rateLimits).1 },
         [Effect.close ch.ws 4410])) ∧
    ((∀ c, ch.clientId = some c →
        (consumeRateLimit now c st.rateLimits).2 = true) →
      (∀ e, mapGet st.sessions target = some e → sendOk e.ws = true →
        (handleClientMessage sendOk now ch st
            (ClientMsg.signal kind target payload sender)).2.2 =
          [Effect.send e.ws (ServerMsg.relayed kind target payload sender)]) ∧
      (mapGet st.sessions target = none →
        (handleClientMessage sendOk now ch st
            (ClientMsg.signal kind target payload sender)).2.1.sessions =
          st.sessions ∧
        (handleClientMessage sendOk now ch st
            (ClientMsg.signal kind target payload sender)).2.2 = [])) := by
  constructor
  · intro c hc hrej
    simp [handleClientMessage, hc, hrej]
  · intro hadm
    cases hcc : ch.clientId with
    | none =>
      constructor
      · intro e he hok
        simp [handleClientMessage, hcc, relayMessage, he, hok]
      · intro he
        simp [handleClientMessage, hcc, relayMessage, he]
    | some c =>
      have hadm' := hadm c hcc
      constructor
      · intro e he hok
        simp [handleClientMessage, hcc, hadm', relayMessage, he, hok]
      · intro he
        simp [handleClientMessage, hcc, hadm', relayMessage, he]

/-- Witness for the amended C4: a joined sender with a fresh rate window is
relayed verbatim to the target's socket; the same message addressed to an
unregistered target produces no effects and leaves the registry alone. -/
theorem relay_forwards_verbatim_witness :
    (handleClientMessage (fun _ => true) 0 ⟨1, 10, some "a"⟩
        ⟨[("a", ⟨1, 10⟩), ("B", ⟨7, 70⟩)], [], []⟩
        (ClientMsg.signal SignalKind.answer "B" "sdp" "a")).2.2 =
      [Effect.send 7 (ServerMsg.relayed SignalKind.answer "B" "sdp" "a")] ∧
    (handleClientMessage (fun _ => true) 0 ⟨1, 10, some "a"⟩
        ⟨[("a", ⟨1, 10⟩), ("B", ⟨7, 70⟩)], [], []⟩
        (ClientMsg.signal SignalKind.answer "ghost" "sdp" "a")).2.2 = [] := by
  constructor
  · exact ((relay_forwards_verbatim (fun _ => true) 0 ⟨1, 10, some "a"⟩
      ⟨[("a", ⟨1, 10⟩), ("B", ⟨7, 70⟩)], [], []⟩ SignalKind.answer "B" "sdp" "a").2
      (by intro c hc; cases hc; decide)).1 ⟨7, 70⟩ (by decide) rfl
  · exact (((relay_forwards_verbatim (fun _ => true) 0 ⟨1, 10, some "a"⟩
      ⟨[("a", ⟨1, 10⟩), ("B", ⟨7, 70⟩)], [], []⟩ SignalKind.answer "ghost" "sdp" "a").2
      (by intro c hc; cases hc; decide)).2 (by decide)).2

/-- Counterexample to C5 as stated: `user-joined{X}` arrives while a live
PeerLink for "X" (object identity 5, remote stream 77 visible in the peer
set) exists; `createPeerConnection` warns and returns the existing link, so
the orchestrator state is completely unchanged — the old PeerLink is not
torn down, nothing is purged from the UI-facing peer set (the stale stream
77 stays visible), and no fresh PeerLink (which would have identity 9) is
created. -/
theorem rejoin_reuses_stale_link_counterexample :
    (handleUserJoined 9 "me" "X"
        ⟨some 3, [(3, ⟨3, "dev", true, false⟩)], [("X", ⟨5, false, some 3⟩)],
         [("X", some 77)], some false, "dev"⟩).1 =
      ⟨some 3, [(3, ⟨3, "dev", true, false⟩)], [("X", ⟨5, false, some 3⟩)],
       [("X", some 77)], some false, "dev"⟩ ∧
    mapGet (handleUserJoined 9 "me" "X"
        ⟨some 3, [(3, ⟨3, "dev", true, false⟩)], [("X", ⟨5, false, some 3⟩)],
         [("X", some 77)], some false, "dev"⟩).1.peerConnections "X" =
      some ⟨5, false, some 3⟩ := by
  constructor
  · decide
  · decide

/-- C5 (amended): when `user-joined{X}` arrives for an id that already has a
live PeerLink, the orchestrator reuses the existing link unchanged — the
whole state, including the UI-facing peer set, is untouched and no second
link is created — and sends exactly one offer on it; a fresh PeerLink is
created only when none exists for that id; and since the connection map
keeps unique keys, at no point do two concurrent PeerLinks exist for the
same remote id. -/
theorem user_joined_reuses_or_creates_link (freshPcId : Nat)
    (me newId : String) (st : OrchState) :
    (∀ pc, mapGet st.peerConnections newId = some pc →
      handleUserJoined freshPcId me newId st =
        (st, [ClientMsg.signal SignalKind.offer newId "offer-sdp" me])) ∧
    (mapGet st.peerConnections newId = none →
      handleUserJoined freshPcId me newId st =
        ({ st with
            peerConnections :=
              mapSet st.peerConnections newId ⟨freshPcId, false, st.localTrack⟩ },
         [ClientMsg.signal SignalKind.offer newId "offer-sdp" me])) ∧
    ((st.peerConnections.map Prod.fst).Nodup →
      ((handleUserJoined freshPcId me newId st).1.peerConnections.map
        Prod.fst).Nodup) := by
  refine ⟨?_, ?_, ?_⟩
  · intro pc hpc
    simp [handleUserJoined, createPeerConnection, hpc]
  · intro hnone
    simp [handleUserJoined, createPeerConnection, hnone]
  · intro hnd
    cases hpc : mapGet st.peerConnections newId with
    | none =>
      simp only [handleUserJoined, createPeerConnection, hpc]
      exact mapSet_keys_nodup _ _ _ hnd
    | some pc =>
      simpa [handleUserJoined, createPeerConnection, hpc] using hnd

/-- Witness for the amended C5: with a live link for "X", `user-joined{X}`
leaves the state unchanged and sends one offer; for the unknown id "Y" a
fresh link (identity 9) is created; key uniqueness is preserved. -/
theorem user_joined_reuses_or_creates_link_witness :
    handleUserJoined 9 "me" "Y"
        ⟨some 3, [(3, ⟨3, "dev", true, false⟩)], [("X", ⟨5, false, some 3⟩)],
         [], some false, "dev"⟩ =
      (⟨some 3, [(3, ⟨3, "dev", true, false⟩)],
        [("X", ⟨5, false, some 3⟩), ("Y", ⟨9, false, some 3⟩)],
        [], some false, "dev"⟩,
       [ClientMsg.signal SignalKind.offer "Y" "offer-sdp" "me"]) ∧
    ((handleUserJoined 9 "me" "Y"
        ⟨some 3, [(3, ⟨3, "dev", true, false⟩)], [("X", ⟨5, false, some 3⟩)],
         [], some false, "dev"⟩).1.peerConnections.map Prod.fst).Nodup := by
  have h := user_joined_reuses_or_creates_link 9 "me" "Y"
    ⟨some 3, [(3, ⟨3, "dev", true, false⟩)], [("X", ⟨5, false, some 3⟩)],
     [], some false, "dev"⟩
  exact ⟨(h.2.1 (by decide)).trans (by decide), h.2.2 (by decide)⟩

/-- C8: switching the capture device while peer links are live acquires a
new track on the requested device whose `enabled` flag preserves the
current mute state, installs it as the local stream, stops the previous
capture (and, when acquisition fails, changes nothing beyond the selected
device — the old capture is stopped only once the new one is ready),
replaces the outgoing audio track on every connection that has an audio
sender while changing no connection's identity, closed flag or key, and
sends only a `mute-state` message — never an offer or answer, so no
renegotiation happens. -/
theorem device_switch_replaces_track_without_renegotiation (newTid : Nat)
    (dev clientId : String) (st : OrchState) (hne : dev ≠ st.selectedDeviceId)
    (hfreshTrack : mapGet st.trackStore newTid = none) (hdev : dev ≠ "") :
    (switchDevice (some (newTid, dev)) clientId dev st).1.peerConnections.map
        (fun p => (p.1, p.2.pcId, p.2.closed)) =
      st.peerConnections.map (fun p => (p.1, p.2.pcId, p.2.closed)) ∧
    List.Forall₂
      (fun p q => p.1 = q.1 ∧ p.2.pcId = q.2.pcId ∧ p.2.closed = q.2.closed ∧
        (p.2.audioSenderTrack.isSome → q.2.audioSenderTrack = some newTid) ∧
        (p.2.audioSenderTrack = none → q = p))
      st.peerConnections
      (switchDevice (some (newTid, dev)) clientId dev st).1.peerConnections ∧
    (switchDevice (some (newTid, dev)) clientId dev st).2 =
      [ClientMsg.muteState (localWasMuted st) clientId] ∧
    (∀ kind target payload sender,
      ClientMsg.signal kind target payload sender ∉
        (switchDevice (some (newTid, dev)) clientId dev st).2) ∧
    (switchDevice (some (newTid, dev)) clientId dev st).1.localTrack =
      some newTid ∧
    mapGet (switchDevice (some (newTid, dev)) clientId dev st).1.trackStore
        newTid = some ⟨newTid, dev, !localWasMuted st, false⟩ ∧
    (switchDevice (some (newTid, dev)) clientId dev st).1.selectedDeviceId =
      dev ∧
    (∀ old t, st.localTrack = some old → mapGet st.trackStore old = some t →
      mapGet (switchDevice (some (newTid, dev)) clientId dev st).1.trackStore
        old = some { t with stopped := true }) ∧
    switchDevice none clientId dev st =
      ({ st with selectedDeviceId := dev }, []) := by
  have hwm : localWasMuted { st with selectedDeviceId := dev } =
      localWasMuted st := rfl
  have hsw : switchDevice (some (newTid, dev)) clientId dev st =
      refreshLocalStream (some (newTid, dev)) clientId
        { st with selectedDeviceId := dev } := by
    unfold switchDevice
    rw [if_neg hne]
  have href : refreshLocalStream (some (newTid, dev)) clientId
        { st with selectedDeviceId := dev } =
      ({ localTrack := some newTid,
         trackStore := mapSet
           (match st.localTrack with
            | some old => stopTrack st.trackStore old
            | none => st.trackStore) newTid ⟨newTid, dev, !localWasMuted st, false⟩,
         peerConnections := replaceTrackAll st.peerConnections newTid,
         peers := st.peers,
         lastBroadcastMuteState := some (localWasMuted st),
         selectedDeviceId := dev },
       [ClientMsg.muteState (localWasMuted st) clientId]) := by
    simp only [refreshLocalStream, hwm]
    rw [if_neg hdev]
  rw [hsw, href]
  refine ⟨replaceTrackAll_preserves _ _, replaceTrackAll_pointwise _ _, rfl, ?_,
    rfl, mapGet_mapSet_self _ _ _, rfl, ?_, ?_⟩
  · intro kind target payload sender hmem
    simp at hmem
  · intro old t hold ht
    have hone : old ≠ newTid := by
      intro h
      rw [h, hfreshTrack] at ht
      cases ht
    simp only [hold]
    rw [mapGet_mapSet_ne _ _ _ _ hone]
    simp [stopTrack, ht]
  · unfold switchDevice
    rw [if_neg hne]
    rfl

/-- Witness for C8: one live link with an audio sender, one closed-over
state with a muted track on device "mic0"; switching to "mic1" with fresh
track 8 keeps the link (identity 5), swaps its outgoing track to 8, keeps
the new track disabled (mute preserved), stops track 3, and sends only the
mute-state message. -/
theorem device_switch_replaces_track_witness :
    (switchDevice (some (8, "mic1")) "me" "mic1"
        ⟨some 3, [(3, ⟨3, "mic0", false, false⟩)], [("X", ⟨5, false, some 3⟩)],
         [], some true, "mic0"⟩).1 =
      ⟨some 8, [(3, ⟨3, "mic0", false, true⟩), (8, ⟨8, "mic1", false, false⟩)],
       [("X", ⟨5, false, some 8⟩)], [], some true, "mic1"⟩ ∧
    (switchDevice (some (8, "mic1")) "me" "mic1"
        ⟨some 3, [(3, ⟨3, "mic0", false, false⟩)], [("X", ⟨5, false, some 3⟩)],
         [], some true, "mic0"⟩).2 = [ClientMsg.muteState true "me"] := by
  have h := device_switch_replaces_track_without_renegotiation 8 "mic1" "me"
    ⟨some 3, [(3, ⟨3, "mic0", false, false⟩)], [("X", ⟨5, false, some 3⟩)],
     [], some true, "mic0"⟩ (by decide) (by decide) (by decide)
  refine ⟨by decide, h.2.2.1.trans (by decide)⟩

end SideChannel
